import Mathlib

/-!
Verification of the footyfun scoring and standings engine
(src/footyfun/models.py) against its natural-language specification.

The embedding below translates the scoring policies (FootyPoints.update,
EggPoints.update), the aggregation of predictions (process_predictions),
the daily snapshot maintenance (Statto.update_points), the cumulative
totals walk (Statto.cummulate), the range query (Statto.stats) and the
game filters used by update_points and create_table.

Conventions of the embedding:
- point tallies use exact rationals (the Python floats only ever hold
  small integer combinations of the quantum);
- scores are integers, with -1 the "unset" sentinel as in the source;
- match times are naturals, a day d covering the window
  [24 * d, 24 * (d + 1)] inclusive at both ends, exactly mirroring the
  inclusive filters 'matchtime >= tday', 'matchtime <= tnextday';
- the datastore is passed explicitly: daily (non-total) and total
  records of a league are maps from date and nickname to an optional
  tally, and update_points acts on an explicit list of records;
- Python operations that can raise (float division by zero) return an
  Option, with none for the raising case.
-/

/-- The five-field point accumulator, mirroring the fields shared by
PointInfo and FootyPoints in the source. -/
@[ext]
structure Tally where
  perfect : ℚ
  goal_difference : ℚ
  goals : ℚ
  result : ℚ
  count : ℚ
deriving DecidableEq

/-- The all-zero tally: the state of a freshly constructed FootyPoints
object, and of a fresh PointInfo record (all fields default 0). -/
def Tally.zero : Tally := ⟨0, 0, 0, 0, 0⟩

/-- PointInfo.add: field-wise addition. -/
def Tally.add (t p : Tally) : Tally :=
  ⟨t.perfect + p.perfect, t.goal_difference + p.goal_difference,
   t.goals + p.goals, t.result + p.result, t.count + p.count⟩

/-- PointInfo.subtract: field-wise subtraction. -/
def Tally.subtract (t p : Tally) : Tally :=
  ⟨t.perfect - p.perfect, t.goal_difference - p.goal_difference,
   t.goals - p.goals, t.result - p.result, t.count - p.count⟩

/-- FootyPoints.set_total: the derived total attribute. -/
def Tally.set_total (t : Tally) : ℚ :=
  t.goals + t.goal_difference + t.perfect + t.result

/-- The points-per-prediction attribute: set_total only assigns it when
count > 0, so it is an Option. -/
def Tally.ppp (t : Tally) : Option ℚ :=
  if t.count > 0 then some (t.set_total / t.count) else none

/-- Python division: raises ZeroDivisionError on a zero divisor,
modelled as none. -/
def pydiv (a b : ℚ) : Option ℚ :=
  if b = 0 then none else some (a / b)

/-- FootyPoints.calculate_averages: divides every field by count with no
guard, so the whole computation is none when any division raises. -/
def Tally.calculate_averages (t : Tally) : Option (ℚ × ℚ × ℚ × ℚ × ℚ × ℚ) :=
  match pydiv t.goals t.count, pydiv t.goal_difference t.count,
        pydiv t.perfect t.count, pydiv t.result t.count,
        pydiv t.set_total t.count with
  | some g, some gd, some pf, some r, some tot => some (t.count, g, gd, pf, r, tot)
  | _, _, _, _, _ => none

/-- A game: actual scores default to the -1 sentinel in the source. -/
structure Game where
  gid : Nat
  ascore : Int
  bscore : Int
  matchtime : Nat
deriving DecidableEq

/-- A prediction by one competitor (nickname) for one game. -/
structure Prediction where
  gid : Nat
  nick : String
  ascore : Int
  bscore : Int
deriving DecidableEq

/-- FootyPoints.update: the Standard scoring policy, translated line by
line from the source (count, two goals checks, goal difference, perfect
score, same result). -/
def footyUpdate (t : Tally) (p : Prediction) (r : Game) (quantum : ℚ) : Tally :=
  let count := t.count + 1
  let goals1 := if p.ascore = r.ascore then t.goals + quantum else t.goals
  let goals2 := if p.bscore = r.bscore then goals1 + quantum else goals1
  let goal_difference := if p.bscore - p.ascore = r.bscore - r.ascore then
    t.goal_difference + quantum else t.goal_difference
  let perfect := if p.ascore = r.ascore ∧ p.bscore = r.bscore then
    t.perfect + quantum else t.perfect
  let result := if (p.ascore > p.bscore ∧ r.ascore > r.bscore) ∨
                   (p.ascore < p.bscore ∧ r.ascore < r.bscore) ∨
                   (p.ascore = p.bscore ∧ r.ascore = r.bscore) then
    t.result + 2 * quantum else t.result
  ⟨perfect, goal_difference, goals2, result, count⟩

/-- EggPoints.update: the tolerance-based policy (tolerance 3),
translated line by line from the source. -/
def eggUpdate (t : Tally) (p : Prediction) (r : Game) (quantum : ℚ) : Tally :=
  let tolerance : ℤ := 3
  let tolerance1 : ℤ := tolerance + 1
  let count := t.count + 1
  let da : ℤ := |p.ascore - r.ascore|
  let goals1 := if da ≤ tolerance then
    t.goals + quantum * ((tolerance1 - da : ℤ) : ℚ) else t.goals
  let db : ℤ := |p.bscore - r.bscore|
  let goals2 := if db ≤ tolerance then
    goals1 + quantum * ((tolerance1 - db : ℤ) : ℚ) else goals1
  let dd : ℤ := |(p.bscore - p.ascore) - (r.bscore - r.ascore)|
  let goal_difference := if dd ≤ tolerance then
    t.goal_difference + quantum * ((tolerance1 - dd : ℤ) : ℚ) else t.goal_difference
  let dp : ℤ := |p.ascore - r.ascore| + |p.bscore - r.bscore|
  let perfect := if dp ≤ tolerance then
    t.perfect + quantum * ((tolerance1 - dp : ℤ) : ℚ) else t.perfect
  let result := if (p.ascore > p.bscore ∧ r.ascore > r.bscore) ∨
                   (p.ascore < p.bscore ∧ r.ascore < r.bscore) ∨
                   (p.ascore = p.bscore ∧ r.ascore = r.bscore) then
    t.result + 2 * quantum else t.result
  ⟨perfect, goal_difference, goals2, result, count⟩

/-- Whether the needle (second list) starts the haystack (first list). -/
def startsWithL : List Char → List Char → Bool
  | _, [] => true
  | [], _ :: _ => false
  | h :: t, n :: m => h == n && startsWithL t m

/-- Substring containment on character lists: Python's 'needle in hay'. -/
def hasSub (needle : List Char) : List Char → Bool
  | [] => needle.isEmpty
  | c :: rest => startsWithL (c :: rest) needle || hasSub needle rest

/-- Points(competition): the policy dispatch tests 'egg' in competition,
i.e. substring containment of "egg" in the competition name. -/
def isEgg (cname : String) : Bool :=
  hasSub "egg".toList cname.toList

/-- The update method of the object returned by Points(competition). -/
def pointsUpdate (cname : String) (t : Tally) (p : Prediction) (r : Game)
    (quantum : ℚ) : Tally :=
  if isEgg cname then eggUpdate t p r quantum else footyUpdate t p r quantum

/-- Swap the home/away labels of a prediction. -/
def swapPred (p : Prediction) : Prediction :=
  { p with ascore := p.bscore, bscore := p.ascore }

/-- Swap the home/away labels of a game result. -/
def swapGame (g : Game) : Game :=
  { g with ascore := g.bscore, bscore := g.ascore }

/-- Zero-defaulted reading of an optional record: an absent competitor
counts as a zero tally. -/
def get0 (o : Option Tally) : Tally := o.getD Tally.zero

/-- result.prediction_set.filter('league =', league): the predictions
for one game (the model fixes a single league, so only the game filter
remains). -/
def predsForGame (preds : List Prediction) (g : Game) : List Prediction :=
  preds.filter (fun p => p.gid == g.gid)

/-- One step of the inner loop of process_predictions:
scores.setdefault(nickname, Points(cname)).update(prediction, result, 1.0),
acting on the scores dictionary. -/
def applyPred (cname : String) (g : Game) (sc : String → Option Tally)
    (p : Prediction) : String → Option Tally :=
  fun w => if w == p.nick then
             some (pointsUpdate cname (get0 (sc p.nick)) p g 1)
           else sc w

/-- process_predictions (with do_details False): fold the per-game
prediction loops over the game list, starting from an empty scores
dictionary; quantum is 1.0 in the source. -/
def process_predictions (cname : String) (gs : List Game)
    (preds : List Prediction) : String → Option Tally :=
  gs.foldl (fun sc g => (predsForGame preds g).foldl (applyPred cname g) sc)
    (fun _ => none)

/-- The contribution of a single scored prediction, starting from a
fresh zero tally. -/
def unitScore (cname : String) (p : Prediction) (g : Game) : Tally :=
  pointsUpdate cname Tally.zero p g 1

/-- Sum of a list of tallies. -/
def tallySum : List Tally → Tally
  | [] => Tally.zero
  | t :: rest => t.add (tallySum rest)

/-- The total contribution of one game to one competitor: the sum of the
unit scores of that competitor's predictions for the game. -/
def gameContrib (cname : String) (preds : List Prediction) (g : Game)
    (w : String) : Tally :=
  tallySum (((predsForGame preds g).filter (fun p => p.nick == w)).map
    (fun p => unitScore cname p g))

/-- The total contribution of a list of games to one competitor. -/
def windowContrib (cname : String) (gs : List Game) (preds : List Prediction)
    (w : String) : Tally :=
  tallySum (gs.map (fun g => gameContrib cname preds g w))

/-- Statto._days_games: games with matchtime between the start of day
and the start of the next day, both bounds inclusive. -/
def daysGames (gs : List Game) (day : Nat) : List Game :=
  gs.filter (fun g => decide (24 * day ≤ g.matchtime) &&
                      decide (g.matchtime ≤ 24 * (day + 1)))

/-- The 'if game.ascore >= 0' loops of update_points and create_table:
only the home score is tested. -/
def scoredGames (gs : List Game) : List Game :=
  gs.filter (fun g => decide (0 ≤ g.ascore))

/-- The games update_points(day) scores: that day's games passing the
ascore test. -/
def update_points_games (gs : List Game) (day : Nat) : List Game :=
  scoredGames (daysGames gs day)

/-- The games create_table scores: the matchtime-range filter (both
bounds inclusive) followed by the ascore test. -/
def create_table_games (gs : List Game) (startT endT : Nat) : List Game :=
  scoredGames (gs.filter (fun g => decide (startT ≤ g.matchtime) &&
                                   decide (g.matchtime ≤ endT)))

/-- The daily snapshot computed (and persisted) by update_points(day):
process_predictions over that day's scored games. -/
def dayPoints (cname : String) (gs : List Game) (preds : List Prediction)
    (day : Nat) : String → Option Tally :=
  process_predictions cname (update_points_games gs day) preds

/-- A persisted PointInfo record for a fixed league. -/
structure PInfo where
  date : Nat
  nick : String
  tally : Tally
  totals : Bool
deriving DecidableEq

/-- PointInfo.reset: zero all five point fields. -/
def PInfo.reset (r : PInfo) : PInfo := { r with tally := Tally.zero }

/-- PointInfo.add on a record. -/
def PInfo.addT (r : PInfo) (t : Tally) : PInfo := { r with tally := r.tally.add t }

/-- First-match lookup in an association list: the behaviour of the
current dictionary built by update_points, where a nickname seen again
is skipped (and its duplicate record deleted). -/
def lookupNick : List (String × PInfo) → String → Option PInfo
  | [], _ => none
  | a :: rest, w => if a.1 == w then some a.2 else lookupNick rest w

/-- The current dictionary of update_points: each record keyed by its
competitor's nickname, first occurrence winning on lookup. -/
def buildCurrent (l : List PInfo) : List (String × PInfo) :=
  l.map (fun r => (r.nick, r))

/-- The save step of update_points for one competitor: reuse the
existing record (reset, then add the fresh tally) or create a new
record for the day, then add the fresh tally. -/
def savePoint (day : Nat) (cur : List (String × PInfo)) (wp : String × Tally) : PInfo :=
  match lookupNick cur wp.1 with
  | some r => (r.reset).addT wp.2
  | none => (PInfo.mk day wp.1 Tally.zero false).addT wp.2

/-- Whether a record is one of the day's non-total (daily) records. -/
def isDayDaily (day : Nat) (r : PInfo) : Bool :=
  r.date == day && r.totals == false

/-- Statto.update_points, acting on the persisted record list: the day's
daily records are fetched, duplicates deleted, survivors reset and
overwritten from the fresh tallies, missing records created, and records
for competitors absent from the fresh tallies deleted; records of other
dates and total records are untouched. -/
def update_points (pts : List (String × Tally)) (day : Nat)
    (store : List PInfo) : List PInfo :=
  let dailyRecs := store.filter (isDayDaily day)
  let others := store.filter (fun r => !(isDayDaily day r))
  let cur := buildCurrent dailyRecs
  others ++ pts.map (savePoint day cur)

/-- The per-league standings state: the cumulation cursor (league.date)
and the persisted daily and total records, as maps from date and
nickname. -/
structure LeagueState where
  cursor : Nat
  daily : Nat → String → Option Tally
  totalsRec : Nat → String → Option Tally

/-- One day of the cummulate walk: the union of the carried totals and
the day's daily records; a new competitor starts from a fresh zero
record, and a competitor with no daily record keeps the carried total. -/
def stepTotals (dm tm : String → Option Tally) : String → Option Tally :=
  fun w =>
    match tm w, dm w with
    | none, none => none
    | some t, none => some t
    | none, some p => some (Tally.zero.add p)
    | some t, some p => some (t.add p)

/-- The totals dictionary carried by cummulate after k days of the walk
starting from the totals stored at the cursor date c. -/
def cummTotals (daily : Nat → String → Option Tally)
    (init : String → Option Tally) (c : Nat) : Nat → String → Option Tally
  | 0 => init
  | Nat.succ k => stepTotals (daily (c + k + 1)) (cummTotals daily init c k)

/-- Statto.cummulate: a no-op when the cursor is already at or past end;
otherwise replace the total records of every date in (cursor, end] by
the walk's totals (pre-existing totals at those dates are deleted first)
and advance the cursor to end. -/
def cummulate (s : LeagueState) (endD : Nat) : LeagueState :=
  if s.cursor ≥ endD then s
  else
    { cursor := endD
      daily := s.daily
      totalsRec := fun d =>
        if s.cursor < d ∧ d ≤ endD then
          cummTotals s.daily (s.totalsRec s.cursor) s.cursor (d - s.cursor)
        else s.totalsRec d }

/-- Statto.stats: cummulate through end, read the totals at end, and
when a start date is given subtract that competitor's totals at start
(when present); competitors without a total record at end produce no
row. Returns the updated state and the per-competitor result. -/
def stats (s : LeagueState) (start : Option Nat) (endD : Nat) :
    LeagueState × (String → Option Tally) :=
  let s1 := cummulate s endD
  let startinfo : String → Option Tally :=
    match start with
    | none => fun _ => none
    | some st => s1.totalsRec st
  (s1, fun w =>
    match s1.totalsRec endD w, startinfo w with
    | none, _ => none
    | some e, some sp => some (e.subtract sp)
    | some e, none => some e)

/-- Sum of f over the days s+1, ..., s+k. -/
def sumDaysK (f : Nat → Tally) (s : Nat) : Nat → Tally
  | 0 => Tally.zero
  | Nat.succ k => (sumDaysK f s k).add (f (s + k + 1))

/-- A leaderboard row: the components of the sort tuple
(points.total, points.perfect, points.goal_difference, points.goals, punter)
built by create_table and FastTablePage after set_total. -/
structure Row where
  total : ℚ
  perfect : ℚ
  goal_difference : ℚ
  goals : ℚ
  nickname : String
deriving DecidableEq

/-- The row built from one (nickname, tally) entry, with total from
set_total, as in create_table and FastTablePage. -/
def rowOf (wt : String × Tally) : Row :=
  ⟨wt.2.set_total, wt.2.perfect, wt.2.goal_difference, wt.2.goals, wt.1⟩

/-- The lexicographic key space for the 5-key sort tuple. -/
abbrev RowKey : Type := Lex (ℚ × Lex (ℚ × Lex (ℚ × Lex (ℚ × String))))

/-- Modelled from the spec: the ordering used to rank rows. The source
attaches the sort tuple to each row but the ordering itself is applied
by the table template, which is not part of the provided source; per the
spec it is descending on the four numeric fields (encoded by negation)
with ascending nickname as the final tiebreak. -/
def rowKey (r : Row) : RowKey :=
  toLex (-r.total, toLex (-r.perfect, toLex (-r.goal_difference,
    toLex (-r.goals, r.nickname))))

/-- Non-strict ranking order on rows. -/
def rowLE (a b : Row) : Prop := rowKey a ≤ rowKey b

/-- Strict ranking order on rows. -/
def rowLT (a b : Row) : Prop := rowKey a < rowKey b

instance : DecidableRel rowLE :=
  fun a b => inferInstanceAs (Decidable (rowKey a ≤ rowKey b))

instance : IsTotal Row rowLE :=
  ⟨fun a b => le_total (rowKey a) (rowKey b)⟩

instance : IsTrans Row rowLE :=
  ⟨fun _ _ _ hab hbc => le_trans hab hbc⟩

/-- Modelled from the spec: the ranking step (the table template is not
part of the provided source): sort the source-built rows by the 5-key
sort tuple. -/
def buildTable (entries : List (String × Tally)) : List Row :=
  List.insertionSort rowLE (entries.map rowOf)

/-- Concrete data for witnesses: a perfectly predicted 1-0 game. -/
def t6 : Tally := ⟨1, 1, 2, 2, 1⟩

/-- Prediction (2, 1) of the spec's Standard example. -/
def pred21 : Prediction := ⟨0, "A", 2, 1⟩

/-- Result (2, 1) of the spec's Standard example. -/
def game21 : Game := ⟨0, 2, 1, 30⟩

/-- Prediction (1, 1) of the spec's ToleranceBased example. -/
def epred : Prediction := ⟨0, "A", 1, 1⟩

/-- Result (3, 2) of the spec's ToleranceBased example. -/
def egame : Game := ⟨0, 3, 2, 30⟩

/-- A league state with a single daily record: competitor "A" scored t6
on day 1; no totals yet, cursor at day 0. -/
def wstate : LeagueState :=
  ⟨0, fun d w => if d = 1 ∧ w = "A" then some t6 else none, fun _ _ => none⟩

/-- A game on day 1 (matchtime 25, strictly inside the day window). -/
def cgame : Game := ⟨1, 1, 0, 25⟩

/-- Competitor "A"'s perfect prediction for cgame. -/
def cpred : Prediction := ⟨1, "A", 1, 0⟩

/-- A league state whose daily records are exactly the update_points
snapshots for the stored games [cgame] and predictions [cpred]. -/
def cstate : LeagueState :=
  ⟨0, fun d => dayPoints "Footy" [cgame] [cpred] d, fun _ _ => none⟩

/-- A game with a set home score and an unset away score. -/
def game8 : Game := ⟨1, 0, -1, 25⟩

/-- Two rows tied on every numeric field, distinguished by nickname. -/
def exRows : List (String × Tally) := [("bob", t6), ("alice", t6)]

theorem Tally.add_zero (t : Tally) : t.add Tally.zero = t := by
  ext <;> simp [Tally.add, Tally.zero]

theorem Tally.zero_add (t : Tally) : Tally.zero.add t = t := by
  ext <;> simp [Tally.add, Tally.zero]

theorem Tally.add_assoc (a b c : Tally) : (a.add b).add c = a.add (b.add c) := by
  ext <;> simp [Tally.add] <;> ring

theorem Tally.add_comm (a b : Tally) : a.add b = b.add a := by
  ext <;> simp [Tally.add] <;> ring

theorem Tally.add_add_add_comm (a b c d : Tally) :
    (a.add b).add (c.add d) = (a.add c).add (b.add d) := by
  ext <;> simp [Tally.add] <;> ring

theorem Tally.subtract_zero (t : Tally) : t.subtract Tally.zero = t := by
  ext <;> simp [Tally.subtract, Tally.zero]

theorem Tally.add_sub_cancel (i x y : Tally) :
    ((i.add (x.add y)).subtract (i.add x)) = y := by
  ext <;> simp [Tally.add, Tally.subtract] <;> ring

theorem footyUpdate_eq (t : Tally) (p : Prediction) (g : Game) (q : ℚ) :
    footyUpdate t p g q =
      ⟨t.perfect + (if p.ascore = g.ascore ∧ p.bscore = g.bscore then q else 0),
       t.goal_difference + (if p.bscore - p.ascore = g.bscore - g.ascore then q else 0),
       t.goals + (if p.ascore = g.ascore then q else 0) + (if p.bscore = g.bscore then q else 0),
       t.result + (if (p.ascore > p.bscore ∧ g.ascore > g.bscore) ∨
                      (p.ascore < p.bscore ∧ g.ascore < g.bscore) ∨
                      (p.ascore = p.bscore ∧ g.ascore = g.bscore) then 2 * q else 0),
       t.count + 1⟩ := by
  unfold footyUpdate
  split_ifs <;> simp_all [Tally.mk.injEq]

theorem eggUpdate_eq (t : Tally) (p : Prediction) (g : Game) (q : ℚ) :
    eggUpdate t p g q =
      ⟨t.perfect + (if |p.ascore - g.ascore| + |p.bscore - g.bscore| ≤ 3 then
          q * ((4 - (|p.ascore - g.ascore| + |p.bscore - g.bscore|) : ℤ) : ℚ) else 0),
       t.goal_difference + (if |(p.bscore - p.ascore) - (g.bscore - g.ascore)| ≤ 3 then
          q * ((4 - |(p.bscore - p.ascore) - (g.bscore - g.ascore)| : ℤ) : ℚ) else 0),
       t.goals + (if |p.ascore - g.ascore| ≤ 3 then
          q * ((4 - |p.ascore - g.ascore| : ℤ) : ℚ) else 0)
        + (if |p.bscore - g.bscore| ≤ 3 then
          q * ((4 - |p.bscore - g.bscore| : ℤ) : ℚ) else 0),
       t.result + (if (p.ascore > p.bscore ∧ g.ascore > g.bscore) ∨
                      (p.ascore < p.bscore ∧ g.ascore < g.bscore) ∨
                      (p.ascore = p.bscore ∧ g.ascore = g.bscore) then 2 * q else 0),
       t.count + 1⟩ := by
  unfold eggUpdate
  split_ifs <;>
    (try (exfalso; linarith [abs_nonneg (p.ascore - g.ascore), abs_nonneg (p.bscore - g.bscore)])) <;>
    simp_all [Tally.mk.injEq] <;>
    (try (rw [if_neg (not_le.mpr (by assumption)), if_neg (not_le.mpr (by assumption))]))

theorem footy_example_eval : footyUpdate Tally.zero pred21 game21 1 = ⟨1, 1, 2, 2, 1⟩ := by
  rw [footyUpdate_eq]
  norm_num [pred21, game21, Tally.zero, Tally.mk.injEq]

/-- C3: Standard scoring (FootyPoints.update with quantum q) adds q to
goals for each side whose predicted score equals the actual score, q to
goal_difference iff the predicted score difference equals the actual
one, q to perfect iff both scores match, 2q to result iff the predicted
outcome category (home win / away win / draw) equals the actual one,
and always adds 1 to count; prediction (2,1) against result (2,1) on a
fresh zero tally with q = 1 yields goals=2, goal_difference=1,
perfect=1, result=2, count=1, and set_total gives total=6. -/
theorem footy_update_spec (t : Tally) (p : Prediction) (g : Game) (q : ℚ)
    (hpa : 0 ≤ p.ascore) (hpb : 0 ≤ p.bscore)
    (ha : 0 ≤ g.ascore) (hb : 0 ≤ g.bscore) :
    ((footyUpdate t p g q).goals =
       t.goals + (if p.ascore = g.ascore then q else 0)
         + (if p.bscore = g.bscore then q else 0)
     ∧ (footyUpdate t p g q).goal_difference =
       t.goal_difference + (if p.bscore - p.ascore = g.bscore - g.ascore then q else 0)
     ∧ (footyUpdate t p g q).perfect =
       t.perfect + (if p.ascore = g.ascore ∧ p.bscore = g.bscore then q else 0)
     ∧ (footyUpdate t p g q).result =
       t.result + (if (p.ascore > p.bscore ∧ g.ascore > g.bscore) ∨
                      (p.ascore < p.bscore ∧ g.ascore < g.bscore) ∨
                      (p.ascore = p.bscore ∧ g.ascore = g.bscore) then 2 * q else 0)
     ∧ (footyUpdate t p g q).count = t.count + 1)
    ∧ footyUpdate Tally.zero pred21 game21 1 = ⟨1, 1, 2, 2, 1⟩
    ∧ (footyUpdate Tally.zero pred21 game21 1).set_total = 6 := by
  refine ⟨?_, footy_example_eval, ?_⟩
  · rw [footyUpdate_eq]
    exact ⟨rfl, rfl, rfl, rfl, rfl⟩
  · rw [footy_example_eval]
    norm_num [Tally.set_total]

theorem footy_update_spec_witness :
    (0 ≤ pred21.ascore ∧ 0 ≤ pred21.bscore ∧ 0 ≤ game21.ascore ∧ 0 ≤ game21.bscore)
    ∧ footyUpdate Tally.zero pred21 game21 1 = ⟨1, 1, 2, 2, 1⟩ :=
  ⟨⟨by decide, by decide, by decide, by decide⟩,
   (footy_update_spec Tally.zero pred21 game21 1
      (by decide) (by decide) (by decide) (by decide)).2.1⟩

theorem egg_example_eval : eggUpdate Tally.zero epred egame 1 = ⟨1, 3, 5, 0, 1⟩ := by
  rw [eggUpdate_eq]
  norm_num [epred, egame, Tally.zero, Tally.mk.injEq]

/-- C4: tolerance-based scoring (EggPoints.update, tolerance 3, quantum
q) adds credit q*(4-delta) when delta <= 3 and 0 otherwise, with delta
each side's absolute score difference for goals (independently per
side), the absolute difference of the (home-away) differences for
goal_difference, and the sum of both per-side absolute differences for
perfect; result adds 2q iff the outcome categories match exactly, with
no tolerance; count always gains 1. Prediction (1,1) against result
(3,2) on a fresh zero tally with q = 1 yields goals=5,
goal_difference=3, perfect=1, result=0, count=1. -/
theorem egg_update_spec (t : Tally) (p : Prediction) (g : Game) (q : ℚ)
    (hpa : 0 ≤ p.ascore) (hpb : 0 ≤ p.bscore)
    (ha : 0 ≤ g.ascore) (hb : 0 ≤ g.bscore) :
    ((eggUpdate t p g q).goals =
       t.goals + (if |p.ascore - g.ascore| ≤ 3 then
          q * ((4 - |p.ascore - g.ascore| : ℤ) : ℚ) else 0)
        + (if |p.bscore - g.bscore| ≤ 3 then
          q * ((4 - |p.bscore - g.bscore| : ℤ) : ℚ) else 0)
     ∧ (eggUpdate t p g q).goal_difference =
       t.goal_difference + (if |(p.ascore - p.bscore) - (g.ascore - g.bscore)| ≤ 3 then
          q * ((4 - |(p.ascore - p.bscore) - (g.ascore - g.bscore)| : ℤ) : ℚ) else 0)
     ∧ (eggUpdate t p g q).perfect =
       t.perfect + (if |p.ascore - g.ascore| + |p.bscore - g.bscore| ≤ 3 then
          q * ((4 - (|p.ascore - g.ascore| + |p.bscore - g.bscore|) : ℤ) : ℚ) else 0)
     ∧ (eggUpdate t p g q).result =
       t.result + (if (p.ascore > p.bscore ∧ g.ascore > g.bscore) ∨
                      (p.ascore < p.bscore ∧ g.ascore < g.bscore) ∨
                      (p.ascore = p.bscore ∧ g.ascore = g.bscore) then 2 * q else 0)
     ∧ (eggUpdate t p g q).count = t.count + 1)
    ∧ eggUpdate Tally.zero epred egame 1 = ⟨1, 3, 5, 0, 1⟩ := by
  refine ⟨?_, egg_example_eval⟩
  have habs : |(p.ascore - p.bscore) - (g.ascore - g.bscore)|
      = |(p.bscore - p.ascore) - (g.bscore - g.ascore)| := by
    rw [show (p.ascore - p.bscore) - (g.ascore - g.bscore)
        = -((p.bscore - p.ascore) - (g.bscore - g.ascore)) from by ring, abs_neg]
  rw [eggUpdate_eq, habs]
  exact ⟨rfl, rfl, rfl, rfl, rfl⟩

theorem egg_update_spec_witness :
    (0 ≤ epred.ascore ∧ 0 ≤ epred.bscore ∧ 0 ≤ egame.ascore ∧ 0 ≤ egame.bscore)
    ∧ eggUpdate Tally.zero epred egame 1 = ⟨1, 3, 5, 0, 1⟩ :=
  ⟨⟨by decide, by decide, by decide, by decide⟩,
   (egg_update_spec Tally.zero epred egame 1
      (by decide) (by decide) (by decide) (by decide)).2⟩

/-- C9: swapping home/away labels consistently in both the prediction
and the result leaves the perfect and result contributions unchanged,
for both scoring policies. -/
theorem swap_home_away_symmetry (t : Tally) (p : Prediction) (g : Game) (q : ℚ) :
    ((footyUpdate t (swapPred p) (swapGame g) q).perfect = (footyUpdate t p g q).perfect
     ∧ (footyUpdate t (swapPred p) (swapGame g) q).result = (footyUpdate t p g q).result)
    ∧ ((eggUpdate t (swapPred p) (swapGame g) q).perfect = (eggUpdate t p g q).perfect
     ∧ (eggUpdate t (swapPred p) (swapGame g) q).result = (eggUpdate t p g q).result) := by
  rw [footyUpdate_eq, footyUpdate_eq, eggUpdate_eq, eggUpdate_eq]
  simp only [swapPred, swapGame]
  refine ⟨⟨?_, ?_⟩, ?_, ?_⟩
  · exact congrArg (fun z => t.perfect + z) (if_congr (by tauto) rfl rfl)
  · exact congrArg (fun z => t.result + z) (if_congr (by omega) rfl rfl)
  · have hc : |p.bscore - g.bscore| + |p.ascore - g.ascore|
        = |p.ascore - g.ascore| + |p.bscore - g.bscore| := add_comm _ _
    rw [hc]
  · exact congrArg (fun z => t.result + z) (if_congr (by omega) rfl rfl)

/-- C10: on a tally with count = 0, set_total still defines total as
the sum of the four scoring fields, the points-per-prediction value is
never assigned, and calculate_averages divides by zero and is
undefined. -/
theorem zero_count_behaviour (t : Tally) (h : t.count = 0) :
    t.set_total = t.goals + t.goal_difference + t.perfect + t.result
    ∧ t.ppp = none
    ∧ t.calculate_averages = none := by
  refine ⟨rfl, ?_, ?_⟩
  · simp [Tally.ppp, h]
  · simp [Tally.calculate_averages, pydiv, h]

theorem zero_count_behaviour_witness :
    Tally.zero.count = 0
    ∧ (Tally.zero.ppp = none ∧ Tally.zero.calculate_averages = none) :=
  ⟨rfl, (zero_count_behaviour Tally.zero rfl).2.1,
        (zero_count_behaviour Tally.zero rfl).2.2⟩

/-- C8 counterexample: a game whose home score is set but whose away
score is still the -1 sentinel is included in scoring by both
update_points (day filter) and create_table (range filter), so
inclusion is not equivalent to both scores being non-negative. -/
theorem scored_filter_ignores_bscore :
    game8 ∈ update_points_games [game8] 1
    ∧ game8 ∈ create_table_games [game8] 24 48
    ∧ game8.bscore < 0 := by
  refine ⟨?_, ?_, by decide⟩ <;> decide

/-- C8 amended: update_points and create_table include a game in
scoring iff it lies in the queried time window and its home score
(ascore) is non-negative; the away score is never tested. -/
theorem scored_filter_amended (gs : List Game) (day startT endT : Nat) (g : Game) :
    (g ∈ update_points_games gs day ↔
       g ∈ gs ∧ 24 * day ≤ g.matchtime ∧ g.matchtime ≤ 24 * (day + 1) ∧ 0 ≤ g.ascore)
    ∧ (g ∈ create_table_games gs startT endT ↔
       g ∈ gs ∧ startT ≤ g.matchtime ∧ g.matchtime ≤ endT ∧ 0 ≤ g.ascore) := by
  constructor <;>
    simp [update_points_games, create_table_games, scoredGames, daysGames,
      List.mem_filter, and_assoc] <;> tauto

theorem lookupNick_buildCurrent {l : List PInfo} {w : String} {r : PInfo}
    (h : lookupNick (buildCurrent l) w = some r) : r ∈ l ∧ r.nick = w := by
  induction l with
  | nil => simp [buildCurrent, lookupNick] at h
  | cons a l ih =>
    rw [buildCurrent, List.map_cons] at h
    rw [lookupNick] at h
    by_cases hw : a.nick == w
    · rw [if_pos hw] at h
      cases h
      exact ⟨List.mem_cons_self a l, beq_iff_eq.mp hw⟩
    · rw [if_neg hw] at h
      have := ih (by rw [buildCurrent]; exact h)
      exact ⟨List.mem_cons_of_mem a this.1, this.2⟩

theorem savePoint_of_daily (day : Nat) (l : List PInfo) (wp : String × Tally)
    (hl : ∀ r ∈ l, r.date = day ∧ r.totals = false) :
    savePoint day (buildCurrent l) wp = ⟨day, wp.1, wp.2, false⟩ := by
  unfold savePoint
  cases hlk : lookupNick (buildCurrent l) wp.1 with
  | none => simp [PInfo.addT, Tally.zero_add]
  | some r =>
    obtain ⟨hmem, hnick⟩ := lookupNick_buildCurrent hlk
    obtain ⟨hd, ht⟩ := hl r hmem
    simp [PInfo.reset, PInfo.addT, Tally.zero_add, hd, ht, hnick]

theorem update_points_eq (pts : List (String × Tally)) (day : Nat)
    (store : List PInfo) :
    update_points pts day store =
      store.filter (fun r => !(isDayDaily day r))
        ++ pts.map (fun wp => ⟨day, wp.1, wp.2, false⟩) := by
  simp only [update_points]
  congr 1
  refine List.map_congr_left (fun wp _ => ?_)
  refine savePoint_of_daily day _ wp (fun r hr => ?_)
  have := (List.mem_filter.mp hr).2
  simp [isDayDaily] at this
  exact this

theorem update_points_twice (pts : List (String × Tally)) (day : Nat)
    (store : List PInfo) :
    update_points pts day (update_points pts day store) = update_points pts day store := by
  rw [update_points_eq, update_points_eq]
  rw [List.filter_append]
  have h1 : (store.filter (fun r => !(isDayDaily day r))).filter
      (fun r => !(isDayDaily day r)) = store.filter (fun r => !(isDayDaily day r)) := by
    simp [List.filter_filter]
  have h2 : ((pts.map (fun wp => (⟨day, wp.1, wp.2, false⟩ : PInfo))).filter
      (fun r => !(isDayDaily day r))) = [] := by
    refine List.filter_eq_nil_iff.mpr (fun r hr => ?_)
    obtain ⟨wp, _, rfl⟩ := List.mem_map.mp hr
    simp [isDayDaily]
  rw [h1, h2, List.append_nil]

/-- C5: with a fixed fresh tally dictionary, calling update_points for a
day any number N >= 1 of times leaves the same persisted records as one
call; moreover a single call rewrites the day's non-total records to be
exactly one fully overwritten record per competitor of the fresh
tallies (surviving records overwritten, missing ones created, leftover
and duplicate records deleted), leaving all other records untouched. -/
theorem update_points_idempotent (pts : List (String × Tally)) (day : Nat)
    (store : List PInfo) (n : Nat) :
    (update_points pts day)^[n + 1] store = update_points pts day store
    ∧ update_points pts day store =
        store.filter (fun r => !(isDayDaily day r))
          ++ pts.map (fun wp => ⟨day, wp.1, wp.2, false⟩) := by
  refine ⟨?_, update_points_eq pts day store⟩
  induction n with
  | zero => rfl
  | succ n ih =>
    rw [Function.iterate_succ_apply', ih, update_points_twice]

theorem get0_stepTotals (dm tm : String → Option Tally) (w : String) :
    get0 (stepTotals dm tm w) = (get0 (tm w)).add (get0 (dm w)) := by
  unfold stepTotals
  cases tm w <;> cases dm w <;>
    simp [get0, Tally.add_zero, Tally.zero_add]

theorem cummulate_cursor (s : LeagueState) (endD : Nat) (h : s.cursor < endD) :
    (cummulate s endD).cursor = endD := by
  rw [cummulate, if_neg (by omega)]

theorem cummulate_totalsRec_eq (s : LeagueState) (endD d : Nat)
    (h1 : s.cursor < endD) (h2 : s.cursor ≤ d) (h3 : d ≤ endD) :
    (cummulate s endD).totalsRec d =
      cummTotals s.daily (s.totalsRec s.cursor) s.cursor (d - s.cursor) := by
  rw [cummulate, if_neg (by omega)]
  by_cases hc : s.cursor < d
  · show (if s.cursor < d ∧ d ≤ endD then _ else _) = _
    rw [if_pos ⟨hc, h3⟩]
  · have hd : d = s.cursor := by omega
    show (if s.cursor < d ∧ d ≤ endD then _ else _) = _
    rw [if_neg (by omega), hd]
    simp [cummTotals, Nat.sub_self]

/-- C1: after cummulate(league, end) from a cursor strictly before end,
for every date d with cursor < d <= end and every competitor, the
persisted total record at d equals the total record at d-1 plus the
daily record at d field-wise, a missing record counting as a zero
tally; and the league's cursor afterwards equals end. -/
theorem cummulate_totals_law (s : LeagueState) (endD d : Nat)
    (h1 : s.cursor < endD) (h2 : s.cursor < d) (h3 : d ≤ endD) (w : String) :
    get0 ((cummulate s endD).totalsRec d w)
      = (get0 ((cummulate s endD).totalsRec (d - 1) w)).add (get0 (s.daily d w))
    ∧ (cummulate s endD).cursor = endD := by
  refine ⟨?_, cummulate_cursor s endD h1⟩
  rw [cummulate_totalsRec_eq s endD d h1 (by omega) h3,
      cummulate_totalsRec_eq s endD (d - 1) h1 (by omega) (by omega)]
  have hk : d - s.cursor = (d - 1 - s.cursor) + 1 := by omega
  rw [hk, cummTotals]
  have hd : s.cursor + (d - 1 - s.cursor) + 1 = d := by omega
  rw [hd]
  exact get0_stepTotals _ _ w

theorem cummulate_totals_law_witness :
    (wstate.cursor < 2 ∧ wstate.cursor < 1 ∧ 1 ≤ 2)
    ∧ (get0 ((cummulate wstate 2).totalsRec 1 "A")
         = (get0 ((cummulate wstate 2).totalsRec 0 "A")).add (get0 (wstate.daily 1 "A"))
       ∧ (cummulate wstate 2).cursor = 2) :=
  ⟨⟨by decide, by decide, by decide⟩,
   cummulate_totals_law wstate 2 1 (by decide) (by decide) (by decide) "A"⟩

/-- C2: stats(league, start, end) first cumulates through end, then
returns a row for exactly the competitors having a total record at end:
the field-wise difference total(end) - total(start) when the competitor
has a total record at start, the end tally unchanged otherwise; a
competitor with a record at start but none at end is absent. -/
theorem stats_range_query (s : LeagueState) (st endD : Nat) (w : String) :
    ((stats s (some st) endD).1 = cummulate s endD)
    ∧ ((stats s (some st) endD).2 w = none ↔ (cummulate s endD).totalsRec endD w = none)
    ∧ (∀ te ts, (cummulate s endD).totalsRec endD w = some te →
        (cummulate s endD).totalsRec st w = some ts →
        (stats s (some st) endD).2 w = some (te.subtract ts))
    ∧ (∀ te, (cummulate s endD).totalsRec endD w = some te →
        (cummulate s endD).totalsRec st w = none →
        (stats s (some st) endD).2 w = some te) := by
  refine ⟨rfl, ?_, ?_, ?_⟩ <;>
    cases hE : (cummulate s endD).totalsRec endD w <;>
    cases hS : (cummulate s endD).totalsRec st w <;>
    simp [stats, hE, hS]

theorem wstate_totals_eval :
    (cummulate wstate 2).totalsRec 2 "A" = some t6
    ∧ (cummulate wstate 2).totalsRec 1 "A" = some t6 := by
  constructor <;>
  · rw [cummulate, if_neg (by decide)]
    simp [wstate, cummTotals, stepTotals, Tally.zero_add]

theorem stats_range_query_witness :
    (cummulate wstate 2).totalsRec 2 "A" = some t6
    ∧ (cummulate wstate 2).totalsRec 1 "A" = some t6
    ∧ (stats wstate (some 1) 2).2 "A" = some (t6.subtract t6) :=
  ⟨wstate_totals_eval.1, wstate_totals_eval.2,
   (stats_range_query wstate 1 2 "A").2.2.1 t6 t6
     wstate_totals_eval.1 wstate_totals_eval.2⟩

theorem rowKey_nickname {a b : Row} (h : rowKey a = rowKey b) :
    a.nickname = b.nickname := by
  simp [rowKey, toLex_inj, Prod.mk.injEq] at h
  exact h.2.2.2.2

/-- C7: the leaderboard built from totalled tallies is ordered by the
5-key sort tuple (total, perfect, goal_difference, goals, nickname),
descending on the four numeric fields with ascending nickname as final
tiebreak; with distinct nicknames this order is strict (a strict total
order), and the output is a permutation of the input rows. -/
theorem build_table_ranked (entries : List (String × Tally))
    (h : (entries.map Prod.fst).Nodup) :
    (buildTable entries).Sorted rowLT
    ∧ (buildTable entries).Perm (entries.map rowOf) := by
  have hperm : (buildTable entries).Perm (entries.map rowOf) :=
    List.perm_insertionSort rowLE _
  refine ⟨?_, hperm⟩
  have hsorted : (buildTable entries).Sorted rowLE :=
    List.sorted_insertionSort rowLE _
  have hnick : (entries.map rowOf).Pairwise (fun a b => a.nickname ≠ b.nickname) := by
    have hmm : ((entries.map rowOf).map Row.nickname).Nodup := by
      rw [List.map_map]
      have hco : (Row.nickname ∘ rowOf) = Prod.fst := by
        funext wt; rfl
      rw [hco]; exact h
    exact List.pairwise_map.mp hmm
  have hnick' : (buildTable entries).Pairwise (fun a b => a.nickname ≠ b.nickname) :=
    (hperm.pairwise_iff (fun hab hba => hab hba.symm)).mpr hnick
  have : (buildTable entries).Pairwise
      (fun a b => rowLE a b ∧ a.nickname ≠ b.nickname) := hsorted.and hnick'
  exact this.imp (fun hab =>
    lt_of_le_of_ne hab.1 (fun hk => hab.2 (rowKey_nickname hk)))

theorem build_table_ranked_witness :
    (exRows.map Prod.fst).Nodup
    ∧ ((buildTable exRows).Sorted rowLT ∧ (buildTable exRows).Perm (exRows.map rowOf)) :=
  ⟨by decide, build_table_ranked exRows (by decide)⟩

theorem footyUpdate_decomp (t : Tally) (p : Prediction) (g : Game) (q : ℚ) :
    footyUpdate t p g q = t.add (footyUpdate Tally.zero p g q) := by
  rw [footyUpdate_eq, footyUpdate_eq]
  ext <;> simp [Tally.add, Tally.zero] <;> ring

theorem eggUpdate_decomp (t : Tally) (p : Prediction) (g : Game) (q : ℚ) :
    eggUpdate t p g q = t.add (eggUpdate Tally.zero p g q) := by
  rw [eggUpdate_eq, eggUpdate_eq]
  ext <;> simp [Tally.add, Tally.zero] <;> ring

theorem pointsUpdate_decomp (cname : String) (t : Tally) (p : Prediction)
    (g : Game) (q : ℚ) :
    pointsUpdate cname t p g q = t.add (pointsUpdate cname Tally.zero p g q) := by
  unfold pointsUpdate
  by_cases h : isEgg cname
  · rw [if_pos h, if_pos h, eggUpdate_decomp]
  · rw [if_neg h, if_neg h, footyUpdate_decomp]

theorem foldl_applyPred (cname : String) (g : Game) (l : List Prediction)
    (sc : String → Option Tally) (w : String) :
    get0 ((l.foldl (applyPred cname g) sc) w)
      = (get0 (sc w)).add (tallySum ((l.filter (fun p => p.nick == w)).map
          (fun p => unitScore cname p g))) := by
  induction l generalizing sc with
  | nil => simp [tallySum, Tally.add_zero]
  | cons p l ih =>
    rw [List.foldl_cons, ih]
    by_cases hw : p.nick = w
    · have h1 : (applyPred cname g sc p) w
          = some (pointsUpdate cname (get0 (sc p.nick)) p g 1) := by
        simp [applyPred, hw]
      rw [h1, hw]
      have h2 : (p :: l).filter (fun p => p.nick == w)
          = p :: l.filter (fun p => p.nick == w) := by
        simp [List.filter_cons, hw]
      rw [h2, List.map_cons]
      show (pointsUpdate cname (get0 (sc w)) p g 1).add _
        = (get0 (sc w)).add (tallySum (unitScore cname p g :: _))
      rw [pointsUpdate_decomp, Tally.add_assoc]
      rfl
    · have h1 : (applyPred cname g sc p) w = sc w := by
        simp [applyPred]
        intro hww
        exact absurd hww.symm hw
      have h2 : (p :: l).filter (fun p => p.nick == w)
          = l.filter (fun p => p.nick == w) := by
        simp [List.filter_cons, hw]
      rw [h1, h2]

theorem foldl_games (cname : String) (preds : List Prediction) (gs : List Game)
    (sc : String → Option Tally) (w : String) :
    get0 ((gs.foldl (fun sc g => (predsForGame preds g).foldl (applyPred cname g) sc) sc) w)
      = (get0 (sc w)).add (tallySum (gs.map (fun g => gameContrib cname preds g w))) := by
  induction gs generalizing sc with
  | nil => simp [tallySum, Tally.add_zero]
  | cons g gs ih =>
    rw [List.foldl_cons, ih, foldl_applyPred, Tally.add_assoc]
    rfl

theorem get0_process (cname : String) (gs : List Game) (preds : List Prediction)
    (w : String) :
    get0 (process_predictions cname gs preds w) = windowContrib cname gs preds w := by
  have h := foldl_games cname preds gs (fun _ => none) w
  simpa [process_predictions, windowContrib, get0, Tally.zero_add] using h

theorem get0_cummTotals (daily : Nat → String → Option Tally)
    (init : String → Option Tally) (c k : Nat) (w : String) :
    get0 (cummTotals daily init c k w)
      = (get0 (init w)).add (sumDaysK (fun j => get0 (daily j w)) c k) := by
  induction k with
  | zero => simp [cummTotals, sumDaysK, Tally.add_zero]
  | succ k ih =>
    rw [cummTotals, get0_stepTotals, ih, sumDaysK, Tally.add_assoc]

theorem cummTotals_none_of (daily : Nat → String → Option Tally)
    (init : String → Option Tally) (c : Nat) {k m : Nat} {w : String}
    (hkm : k ≤ m) (h : cummTotals daily init c m w = none) :
    cummTotals daily init c k w = none := by
  induction m with
  | zero =>
    have hk0 : k = 0 := by omega
    rw [hk0]; exact h
  | succ m ih =>
    by_cases hk : k = m + 1
    · rw [hk]; exact h
    · have hm : cummTotals daily init c m w = none := by
        rw [cummTotals] at h
        cases hx : cummTotals daily init c m w with
        | none => rfl
        | some t =>
          exfalso
          cases hd : daily (c + m + 1) w <;>
            simp [stepTotals, hx, hd] at h
      exact ih (by omega) hm

theorem get0_stats_sub (s : LeagueState) (S E : Nat)
    (hOS : s.cursor ≤ S) (hSE : S ≤ E) (hOE : s.cursor < E) (w : String) :
    get0 ((stats s (some S) E).2 w)
      = (get0 ((cummulate s E).totalsRec E w)).subtract
          (get0 ((cummulate s E).totalsRec S w)) := by
  have hE := cummulate_totalsRec_eq s E E hOE (by omega) (le_refl E)
  have hS := cummulate_totalsRec_eq s E S hOE hOS hSE
  cases hETw : (cummulate s E).totalsRec E w with
  | none =>
    have hSn : (cummulate s E).totalsRec S w = none := by
      rw [hS]
      refine cummTotals_none_of _ _ _
        (show S - s.cursor ≤ E - s.cursor by omega) ?_
      rw [hE] at hETw
      exact hETw
    have hr : (stats s (some S) E).2 w = none := by simp [stats, hETw]
    rw [hr, hSn]
    simp [get0, Tally.subtract_zero]
  | some te =>
    cases hSTw : (cummulate s E).totalsRec S w with
    | some ts =>
      have hr : (stats s (some S) E).2 w = some (te.subtract ts) := by
        simp [stats, hETw, hSTw]
      rw [hr]; rfl
    | none =>
      have hr : (stats s (some S) E).2 w = some te := by
        simp [stats, hETw, hSTw]
      rw [hr]
      simp [get0, Tally.subtract_zero]

theorem sumDaysK_split (f : Nat → Tally) (s a b : Nat) :
    sumDaysK f s (a + b) = (sumDaysK f s a).add (sumDaysK f (s + a) b) := by
  induction b with
  | zero => simp [sumDaysK, Tally.add_zero]
  | succ b ih =>
    rw [Nat.add_succ, sumDaysK, ih, sumDaysK, Tally.add_assoc]
    have harg : s + (a + b) + 1 = s + a + b + 1 := by omega
    rw [harg]

theorem sumDaysK_congr (f h : Nat → Tally) (s k : Nat)
    (H : ∀ m, 1 ≤ m → m ≤ k → f (s + m) = h (s + m)) :
    sumDaysK f s k = sumDaysK h s k := by
  induction k with
  | zero => rfl
  | succ k ih =>
    rw [sumDaysK, sumDaysK, ih (fun m h1 h2 => H m h1 (by omega))]
    have := H (k + 1) (by omega) (le_refl _)
    rw [show s + (k + 1) = s + k + 1 from rfl] at this
    rw [this]

theorem sumDaysK_add (f h : Nat → Tally) (s k : Nat) :
    sumDaysK (fun j => (f j).add (h j)) s k
      = (sumDaysK f s k).add (sumDaysK h s k) := by
  induction k with
  | zero => simp [sumDaysK, Tally.add_zero]
  | succ k ih =>
    rw [sumDaysK, ih, sumDaysK, sumDaysK, Tally.add_add_add_comm]

theorem sumDaysK_zero (s k : Nat) :
    sumDaysK (fun _ => Tally.zero) s k = Tally.zero := by
  induction k with
  | zero => rfl
  | succ k ih => rw [sumDaysK, ih, Tally.add_zero]

theorem tallySum_map_filter (gs : List Game) (q : Game → Bool) (F : Game → Tally) :
    tallySum ((gs.filter q).map F)
      = tallySum (gs.map (fun g => if q g then F g else Tally.zero)) := by
  induction gs with
  | nil => rfl
  | cons g gs ih =>
    by_cases hq : q g
    · simp [List.filter_cons, hq, tallySum, ih]
    · simp [List.filter_cons, hq, tallySum, ih, Tally.zero_add]

theorem tallySum_map_congr {gs : List Game} {F H : Game → Tally}
    (h : ∀ g ∈ gs, F g = H g) : tallySum (gs.map F) = tallySum (gs.map H) := by
  rw [List.map_congr_left h]

theorem sumDaysK_tallySum (gs : List Game) (G : Nat → Game → Tally) (s k : Nat) :
    sumDaysK (fun j => tallySum (gs.map (G j))) s k
      = tallySum (gs.map (fun g => sumDaysK (fun j => G j g) s k)) := by
  induction gs with
  | nil => simp [tallySum, sumDaysK_zero]
  | cons g gs ih =>
    have hfun : (fun j => tallySum ((g :: gs).map (G j)))
        = fun j => (G j g).add (tallySum (gs.map (G j))) := rfl
    rw [hfun, sumDaysK_add, ih, List.map_cons, tallySum]

theorem sumDaysK_day_window (mt : Nat) (hmt : ¬ (24 ∣ mt)) (X : Tally) (s k : Nat) :
    sumDaysK (fun j => if 24 * j ≤ mt ∧ mt ≤ 24 * (j + 1) then X else Tally.zero) s k
      = if 24 * (s + 1) ≤ mt ∧ mt ≤ 24 * (s + k) + 24 then X else Tally.zero := by
  induction k with
  | zero =>
    rw [sumDaysK, if_neg (by omega)]
  | succ k ih =>
    rw [sumDaysK, ih]
    split_ifs <;> first
      | (exfalso; omega)
      | rw [Tally.add_zero]
      | rw [Tally.zero_add]

theorem windowContrib_day_eq (cname : String) (games : List Game)
    (preds : List Prediction) (w : String) (j : Nat) :
    windowContrib cname (update_points_games games j) preds w
      = tallySum (games.map (fun g =>
          if 24 * j ≤ g.matchtime ∧ g.matchtime ≤ 24 * (j + 1) then
            (if 0 ≤ g.ascore then gameContrib cname preds g w else Tally.zero)
          else Tally.zero)) := by
  unfold windowContrib update_points_games scoredGames daysGames
  rw [tallySum_map_filter, tallySum_map_filter]
  exact tallySum_map_congr (fun g _ => by
    simp [Bool.and_eq_true, decide_eq_true_eq])

theorem windowContrib_range_eq (cname : String) (games : List Game)
    (preds : List Prediction) (w : String) (a b : Nat) :
    windowContrib cname (create_table_games games a b) preds w
      = tallySum (games.map (fun g =>
          if a ≤ g.matchtime ∧ g.matchtime ≤ b then
            (if 0 ≤ g.ascore then gameContrib cname preds g w else Tally.zero)
          else Tally.zero)) := by
  unfold windowContrib create_table_games scoredGames
  rw [tallySum_map_filter, tallySum_map_filter]
  exact tallySum_map_congr (fun g _ => by
    simp [Bool.and_eq_true, decide_eq_true_eq])

/-- C6 amended: the fast path stats(start, end) agrees field-wise,
per competitor (absent read as zero), with the slow-path recomputation
(process_predictions over create_table's game window), provided the
league's stored daily records are the update_points snapshots for every
day in (cursor, end], cursor <= start <= end with cursor < end, no game
sits exactly on a midnight day boundary, and the slow window is the one
covering days start+1 .. end, i.e. matchtimes in
[24*(start+1), 24*(end+1)].  With the same (start, end) handed verbatim
to both paths the tallies differ (see the counterexample): the slow
path also counts the games of day start, which the fast difference
total(end) - total(start) excludes. -/
theorem fast_table_eq_slow
    (cname : String) (games : List Game) (preds : List Prediction)
    (s : LeagueState) (S E : Nat)
    (hOS : s.cursor ≤ S) (hSE : S ≤ E) (hOE : s.cursor < E)
    (hdaily : ∀ d, s.cursor < d → d ≤ E → s.daily d = dayPoints cname games preds d)
    (hmt : ∀ g ∈ games, ¬ (24 ∣ g.matchtime)) (w : String) :
    get0 ((stats s (some S) E).2 w)
      = get0 (process_predictions cname
          (create_table_games games (24 * (S + 1)) (24 * (E + 1))) preds w) := by
  rw [get0_stats_sub s S E hOS hSE hOE w]
  rw [cummulate_totalsRec_eq s E E hOE (by omega) (le_refl E),
      cummulate_totalsRec_eq s E S hOE hOS hSE]
  rw [get0_cummTotals, get0_cummTotals]
  have hsplit : E - s.cursor = (S - s.cursor) + (E - S) := by omega
  rw [hsplit, sumDaysK_split]
  have hSa : s.cursor + (S - s.cursor) = S := by omega
  rw [hSa, Tally.add_sub_cancel]
  have hstep : ∀ m, 1 ≤ m → m ≤ E - S →
      get0 (s.daily (S + m) w)
        = windowContrib cname (update_points_games games (S + m)) preds w := by
    intro m h1 h2
    rw [hdaily (S + m) (by omega) (by omega)]
    exact get0_process cname (update_points_games games (S + m)) preds w
  rw [sumDaysK_congr (fun j => get0 (s.daily j w))
    (fun j => windowContrib cname (update_points_games games j) preds w)
    S (E - S) hstep]
  have hstep2 : ∀ m, 1 ≤ m → m ≤ E - S →
      windowContrib cname (update_points_games games (S + m)) preds w
        = tallySum (games.map (fun g =>
            if 24 * (S + m) ≤ g.matchtime ∧ g.matchtime ≤ 24 * ((S + m) + 1) then
              (if 0 ≤ g.ascore then gameContrib cname preds g w else Tally.zero)
            else Tally.zero)) :=
    fun m _ _ => windowContrib_day_eq cname games preds w (S + m)
  rw [sumDaysK_congr
    (fun j => windowContrib cname (update_points_games games j) preds w)
    (fun j => tallySum (games.map (fun g =>
      if 24 * j ≤ g.matchtime ∧ g.matchtime ≤ 24 * (j + 1) then
        (if 0 ≤ g.ascore then gameContrib cname preds g w else Tally.zero)
      else Tally.zero)))
    S (E - S) hstep2]
  rw [sumDaysK_tallySum games
    (fun j g => if 24 * j ≤ g.matchtime ∧ g.matchtime ≤ 24 * (j + 1) then
      (if 0 ≤ g.ascore then gameContrib cname preds g w else Tally.zero)
    else Tally.zero) S (E - S)]
  rw [get0_process, windowContrib_range_eq]
  refine tallySum_map_congr (fun g hg => ?_)
  rw [sumDaysK_day_window g.matchtime (hmt g hg)
      (if 0 ≤ g.ascore then gameContrib cname preds g w else Tally.zero) S (E - S)]
  exact if_congr (by omega) rfl rfl

theorem proc_single : process_predictions "Footy" [cgame] [cpred] "A" = some t6 := by
  have hF : isEgg "Footy" = false := by decide
  have hu : pointsUpdate "Footy" Tally.zero cpred cgame 1 = t6 := by
    rw [pointsUpdate, hF]
    simp only [Bool.false_eq_true, if_false]
    rw [footyUpdate_eq]
    norm_num [cpred, cgame, Tally.zero, t6, Tally.mk.injEq]
  have happ : applyPred "Footy" cgame (fun _ => none) cpred "A"
      = some (pointsUpdate "Footy" Tally.zero cpred cgame 1) := by
    simp [applyPred, cpred, get0]
  calc process_predictions "Footy" [cgame] [cpred] "A"
      = applyPred "Footy" cgame (fun _ => none) cpred "A" := rfl
    _ = some (pointsUpdate "Footy" Tally.zero cpred cgame 1) := happ
    _ = some t6 := congrArg some hu

theorem cstate_daily1_A : cstate.daily 1 "A" = some t6 := by
  show process_predictions "Footy" (update_points_games [cgame] 1) [cpred] "A" = some t6
  rw [show update_points_games [cgame] 1 = [cgame] from by decide]
  exact proc_single

theorem cstate_daily2_A : cstate.daily 2 "A" = none := by
  show process_predictions "Footy" (update_points_games [cgame] 2) [cpred] "A" = none
  rw [show update_points_games [cgame] 2 = ([] : List Game) from by decide]
  rfl

theorem fast_eval : get0 ((stats cstate (some 1) 2).2 "A") = t6.subtract t6 := by
  rw [get0_stats_sub cstate 1 2 (by decide) (by decide) (by decide) "A"]
  rw [cummulate_totalsRec_eq cstate 2 2 (by decide) (by decide) (le_refl 2),
      cummulate_totalsRec_eq cstate 2 1 (by decide) (by decide) (by decide)]
  rw [get0_cummTotals, get0_cummTotals]
  rw [show cstate.cursor = 0 from rfl]
  have h2 : ∀ f : Nat → Tally, sumDaysK f 0 (2 - 0) = (Tally.zero.add (f 1)).add (f 2) :=
    fun f => rfl
  have h1 : ∀ f : Nat → Tally, sumDaysK f 0 (1 - 0) = Tally.zero.add (f 1) :=
    fun f => rfl
  rw [h2, h1]
  have hinit : get0 (cstate.totalsRec 0 "A") = Tally.zero := rfl
  simp only [hinit, cstate_daily1_A, cstate_daily2_A]
  simp [get0, Tally.zero_add, Tally.add_zero]

/-- C6 counterexample: with the same stored game (matchtime inside day
1), the same prediction, daily records equal to the update_points
snapshots, cursor 0, and the identical range (start=1, end=2) handed to
both paths (the slow path receiving its datetime form [24, 48]), the
fast path stats(1,2) reports a zero window tally for "A" while the
slow-path recomputation reports the full tally of the day-1 game: the
paths disagree because the slow range includes day start's games while
the fast difference total(end) - total(start) excludes them. -/
theorem fast_slow_paths_differ :
    get0 ((stats cstate (some 1) 2).2 "A")
      ≠ get0 (process_predictions "Footy"
          (create_table_games [cgame] (24 * 1) (24 * 2)) [cpred] "A") := by
  rw [fast_eval]
  rw [show create_table_games [cgame] (24 * 1) (24 * 2) = [cgame] from by decide]
  rw [proc_single]
  simp [get0, Tally.subtract, t6, Tally.mk.injEq]

theorem fast_table_eq_slow_witness :
    (cstate.cursor ≤ 0 ∧ (0 : Nat) ≤ 2 ∧ cstate.cursor < 2
     ∧ (∀ g ∈ [cgame], ¬ (24 ∣ g.matchtime)))
    ∧ get0 ((stats cstate (some 0) 2).2 "A")
        = get0 (process_predictions "Footy"
            (create_table_games [cgame] (24 * (0 + 1)) (24 * (2 + 1))) [cpred] "A") :=
  ⟨⟨by decide, by decide, by decide, by decide⟩,
   fast_table_eq_slow "Footy" [cgame] [cpred] cstate 0 2
     (by decide) (by decide) (by decide) (fun d _ _ => rfl) (by decide) "A"⟩
